import Mathlib

/-!
Shallow embedding of `src/sermon_summarizer/trascription_manager.py`
(the external transcription job lifecycle: submission, polling state
machine, time codec, result decoding and subtitle serialization).

Python JSON values are modelled by the inductive `JVal`; Python floats
are modelled as exact rationals (`ℚ`); Python exceptions are modelled by
`Except` / explicit error constructors; file writes are modelled as a
list of `(path, content)` pairs produced by the function under study.
-/

namespace SermonSummarizer

section

/- Batteries seals rational arithmetic against definitional unfolding;
re-opening it here lets `decide`/`rfl` evaluate the model on concrete
rational inputs. -/
attribute [local semireducible] Rat.mul Rat.inv Rat.add Rat.sub Rat.ofScientific

/-- A Python/JSON value as handled by the transcription manager. -/
inductive JVal where
  | null : JVal
  | bool : Bool → JVal
  | num : ℚ → JVal
  | str : String → JVal
  | arr : List JVal → JVal
  | obj : List (String × JVal) → JVal

mutual

/-- Structural equality of `JVal`s, as Python `==` behaves on the JSON
values exchanged with the backend. -/
def jvalBeq : JVal → JVal → Bool
  | .null, .null => true
  | .bool a, .bool b => a == b
  | .num a, .num b => a == b
  | .str a, .str b => a == b
  | .arr xs, .arr ys => jvalListBeq xs ys
  | .obj xs, .obj ys => jvalObjBeq xs ys
  | _, _ => false

/-- Elementwise equality of `JVal` lists. -/
def jvalListBeq : List JVal → List JVal → Bool
  | [], [] => true
  | x :: xs, y :: ys => jvalBeq x y && jvalListBeq xs ys
  | _, _ => false

/-- Elementwise equality of key-value lists. -/
def jvalObjBeq : List (String × JVal) → List (String × JVal) → Bool
  | [], [] => true
  | (k1, v1) :: xs, (k2, v2) :: ys => k1 == k2 && jvalBeq v1 v2 && jvalObjBeq xs ys
  | _, _ => false

end

/-- `jvalBeq` decides propositional equality. -/
theorem jvalBeq_iff : ∀ a b : JVal, jvalBeq a b = true ↔ a = b := by
  apply jvalBeq.induct (fun a b => jvalBeq a b = true ↔ a = b)
      (fun xs ys => jvalObjBeq xs ys = true ↔ xs = ys)
      (fun xs ys => jvalListBeq xs ys = true ↔ xs = ys)
  case case7 =>
    intro t x h1 h2 h3 h4 h5 h6
    cases t <;> cases x <;> simp_all [jvalBeq]
  case case10 =>
    intro t x h1 h2
    cases t with
    | nil =>
      cases x with
      | nil => exact (h1 rfl rfl).elim
      | cons y ys => simp [jvalListBeq]
    | cons a as =>
      cases x with
      | nil => simp [jvalListBeq]
      | cons y ys => exact (h2 a as y ys rfl rfl).elim
  case case13 =>
    intro t x h1 h2
    cases t with
    | nil =>
      cases x with
      | nil => exact (h1 rfl rfl).elim
      | cons y ys => simp [jvalObjBeq]
    | cons a as =>
      cases x with
      | nil => simp [jvalObjBeq]
      | cons y ys => exact (h2 a.1 a.2 as y.1 y.2 ys rfl rfl).elim
  all_goals intros
  all_goals simp_all [jvalBeq, jvalListBeq, jvalObjBeq]

instance : BEq JVal := ⟨jvalBeq⟩

instance : DecidableEq JVal :=
  fun a b => decidable_of_iff (jvalBeq a b = true) (jvalBeq_iff a b)

/-- Key lookup in a Python dict (first binding wins). -/
def lookupKey (kvs : List (String × JVal)) (k : String) : Option JVal :=
  match kvs.find? (fun p => p.1 == k) with
  | some p => some p.2
  | none => none

/-- Python `d.get(k, default)` on a dict given as a key-value list. -/
def jGetD (kvs : List (String × JVal)) (k : String) (d : JVal) : JVal :=
  (lookupKey kvs k).getD d

/-- Python `v.get(k, default)`: `none` models the `AttributeError`
raised when `v` is not a dict. -/
def objGetD (v : JVal) (k : String) (d : JVal) : Option JVal :=
  match v with
  | .obj kvs => some (jGetD kvs k d)
  | _ => none

/-- Python truthiness of a value (`if not x`, `x or y`). -/
def pyTruthy : JVal → Bool
  | .null => false
  | .bool b => b
  | .num q => decide (q ≠ 0)
  | .str s => !s.isEmpty
  | .arr xs => !xs.isEmpty
  | .obj kvs => !kvs.isEmpty

/-! ### Decimal rendering (Python `str`/`format` of integers)

A fuel-based structural recursion so that the kernel can evaluate it. -/

/-- The character for a decimal digit `n < 10`. -/
def digitChar (n : ℕ) : Char := Char.ofNat (48 + n)

/-- Decimal digits of `n`, most significant first; `fuel ≥ 1` suffices
whenever `fuel > log10 n`. -/
def natReprCore : ℕ → ℕ → List Char
  | 0, _ => []
  | fuel + 1, n =>
      if n < 10 then [digitChar n]
      else natReprCore fuel (n / 10) ++ [digitChar (n % 10)]

/-- Decimal rendering of a natural number, as Python `str` produces. -/
def natRepr (n : ℕ) : String := ⟨natReprCore (n + 1) n⟩

/-- Python `format(n, "0wd")` for `n ≥ 0`: left-pad with zeros to width
`w`. -/
def padNat (w : ℕ) (n : ℕ) : String :=
  ⟨List.replicate (w - (natRepr n).length) '0'⟩ ++ natRepr n

/-- Python `format(i, "0wd")`: sign first, then zero padding. -/
def padInt (w : ℕ) (i : ℤ) : String :=
  if i < 0 then "-" ++ padNat (w - 1) i.natAbs else padNat w i.toNat

/-! ### Time codec (`seconds_to_srt_time`, lines 117-123) -/

/-- Python `a % m` on numbers (sign of the result follows `m`; for the
positive moduli used here this is `a - m * ⌊a / m⌋`). -/
def pymod (a m : ℚ) : ℚ := a - m * ⌊a / m⌋

/-- Python `int(q)`: truncation toward zero. -/
def pytrunc (q : ℚ) : ℤ := if 0 ≤ q then ⌊q⌋ else ⌈q⌉

/-- `hours = int(seconds // 3600)` -/
def srtHours (seconds : ℚ) : ℤ := ⌊seconds / 3600⌋

/-- `minutes = int((seconds % 3600) // 60)` -/
def srtMinutes (seconds : ℚ) : ℤ := ⌊pymod seconds 3600 / 60⌋

/-- `secs = int(seconds % 60)` -/
def srtSecs (seconds : ℚ) : ℤ := pytrunc (pymod seconds 60)

/-- `milliseconds = int((seconds % 1) * 1000)` -/
def srtMillis (seconds : ℚ) : ℤ := pytrunc (pymod seconds 1 * 1000)

/-- `seconds_to_srt_time`: convert seconds to the SRT `HH:MM:SS,mmm`
format, the float argument modelled as an exact rational. -/
def seconds_to_srt_time (seconds : ℚ) : String :=
  padInt 2 (srtHours seconds) ++ ":" ++ padInt 2 (srtMinutes seconds) ++ ":" ++
    padInt 2 (srtSecs seconds) ++ "," ++ padInt 3 (srtMillis seconds)

/-- Decidable check that a string matches `\d{2,}:\d{2}:\d{2},\d{3}`
(anchored at both ends). -/
def srtPatternOk (s : String) : Bool :=
  let cs := s.data
  let hs := cs.takeWhile Char.isDigit
  let rest := cs.dropWhile Char.isDigit
  decide (2 ≤ hs.length) &&
    match rest with
    | ':' :: m1 :: m2 :: ':' :: s1 :: s2 :: ',' :: x1 :: x2 :: x3 :: [] =>
        m1.isDigit && m2.isDigit && s1.isDigit && s2.isDigit &&
          x1.isDigit && x2.isDigit && x3.isDigit
    | _ => false

/-! ### Result decoding and subtitle serialization
(`save_transcription_as_srt`, lines 125-145) -/

/-- Python whitespace for `str.strip()` (space, tab, newline, carriage
return, vertical tab, form feed). -/
def isPySpace (c : Char) : Bool :=
  c == ' ' || c == '\t' || c == '\n' || c == '\r' || c == '\x0b' || c == '\x0c'

/-- Python `s.strip()`: remove leading and trailing whitespace. -/
def pyStrip (s : String) : String :=
  ⟨((s.data.dropWhile isPySpace).reverse.dropWhile isPySpace).reverse⟩

/-- Python `s.replace(pat, rep)` scanning left to right (non-overlapping);
`fuel` bounds the scan, one unit per retained or replaced position. -/
def strReplaceCore (pat rep : List Char) : ℕ → List Char → List Char
  | _, [] => []
  | 0, rest => rest
  | fuel + 1, c :: rest =>
      if pat.isPrefixOf (c :: rest) then
        rep ++ strReplaceCore pat rep fuel ((c :: rest).drop pat.length)
      else
        c :: strReplaceCore pat rep fuel rest

/-- Python `s.replace(pat, rep)` for a non-empty pattern. -/
def pyReplace (s pat rep : String) : String :=
  ⟨strReplaceCore pat.data rep.data (s.data.length + 1) s.data⟩

/-- A Python exception class relevant to this module. -/
inductive PyError where
  | attributeError : PyError
  | typeError : PyError
deriving DecidableEq

/-- One decoded segment as built by lines 137-139: `start`/`end` are the
raw values of `segment.get('start', 0)` / `segment.get('end', 0)` and
`text` is `segment.get('text', '').strip()`.  (`end` is a Lean keyword,
hence the field name `stop`.)  The `.error` outcome models the
`AttributeError` raised when `segment` is not a dict or its text is not
a string. -/
structure Segment where
  start : JVal
  stop : JVal
  text : String
deriving DecidableEq

/-- Decode one element of the segment list (lines 137-139). -/
def decodeSegment (segment : JVal) : Except PyError Segment :=
  match objGetD segment "start" (.num 0) with
  | none => .error .attributeError
  | some s =>
    match objGetD segment "end" (.num 0) with
    | none => .error .attributeError
    | some e =>
      match objGetD segment "text" (.str "") with
      | none => .error .attributeError
      | some tv =>
        match tv with
        | .str t => .ok ⟨s, e, pyStrip t⟩
        | _ => .error .attributeError

/-- The numeric value of a `JVal` when Python arithmetic accepts it
(`bool` is an int subtype in Python); `none` models a `TypeError`. -/
def pyNumVal : JVal → Option ℚ
  | .num q => some q
  | .bool b => some (if b then 1 else 0)
  | _ => none

/-- One SRT cue as written by lines 142-144: index line, timestamp line,
text line, blank separator line. -/
def cueString (i : ℕ) (st en : ℚ) (text : String) : String :=
  natRepr i ++ "\n" ++ seconds_to_srt_time st ++ " --> " ++
    seconds_to_srt_time en ++ "\n" ++ text ++ "\n\n"

/-- One iteration of the write loop (lines 136-144) at 1-based position
`i`: `.ok none` when the segment is skipped for blank text, `.ok (some c)`
when cue text `c` is written. -/
def srtStep (i : ℕ) (segment : JVal) : Except PyError (Option String) :=
  match decodeSegment segment with
  | .error e => .error e
  | .ok seg =>
    if seg.text = "" then .ok none
    else
      match pyNumVal seg.start, pyNumVal seg.stop with
      | some st, some en => .ok (some (cueString i st en seg.text))
      | _, _ => .error .typeError

/-- The full SRT document body produced by `for i, segment in
enumerate(segments, i0)`. -/
def srtBody : List JVal → ℕ → Except PyError String
  | [], _ => .ok ""
  | seg :: rest, i =>
    match srtStep i seg with
    | .error e => .error e
    | .ok none => srtBody rest (i + 1)
    | .ok (some cue) =>
      match srtBody rest (i + 1) with
      | .error e => .error e
      | .ok body => .ok (cue ++ body)

/-- The content of one written file: either text written with
`f.write`, or `json.dump(payload, f, indent=2)` of a payload (the exact
JSON spelling is abstracted; the payload is kept verbatim). -/
inductive FileContent where
  | text : String → FileContent
  | json : JVal → FileContent
deriving DecidableEq

/-- `save_transcription_as_srt(result_data, output_path)`: returns the
list of `(path, content)` writes and the returned Boolean, or the
uncaught exception.  On an exception any partially written file is not
tracked (no claim concerns that case). -/
def save_transcription_as_srt (result_data : JVal) (output_path : String) :
    Except PyError (List (String × FileContent) × Bool) :=
  match objGetD result_data "result" (.arr []) with
  | none => .error .attributeError
  | some result =>
    match result with
    | .arr segments =>
      if segments.isEmpty then
        .ok ([(pyReplace output_path ".srt" "_raw.json", .json result_data)], false)
      else
        match srtBody segments 1 with
        | .error e => .error e
        | .ok body => .ok ([(output_path, .text body)], true)
    | _ => .ok ([(pyReplace output_path ".srt" "_raw.json", .json result_data)], false)

/-! ### Job submission (`upload_and_get_task_id`, lines 55-65) -/

/-- The backend's HTTP response to the submission POST: transport status
code plus the parsed JSON body. -/
structure HttpResponse where
  statusCode : ℕ
  body : JVal
deriving DecidableEq

/-- An exception raised by `upload_and_get_task_id`. -/
inductive UploadError where
  /-- `requests.HTTPError` from `response.raise_for_status()`. -/
  | transportError : ℕ → UploadError
  /-- `ValueError(f"No identifier found in response: {response_data}")`. -/
  | noIdentifier : JVal → UploadError
  /-- `AttributeError`: the parsed body is not a dict. -/
  | attributeError : UploadError
deriving DecidableEq

/-- `upload_and_get_task_id`: `raise_for_status` raises for status codes
in [400, 600); otherwise the body's `identifier` field is extracted and
returned when truthy.  (The informational `message` print on line 61 has
no observable effect and is not modelled.) -/
def upload_and_get_task_id (resp : HttpResponse) : Except UploadError JVal :=
  if 400 ≤ resp.statusCode ∧ resp.statusCode < 600 then
    .error (.transportError resp.statusCode)
  else
    match resp.body with
    | .obj kvs =>
      let task_id := jGetD kvs "identifier" .null
      if pyTruthy task_id then .ok task_id else .error (.noIdentifier (.obj kvs))
    | _ => .error .attributeError

/-! ### Job poller (`poll_for_result`, lines 67-115)

The loop is driven by a script: the list of successive outcomes of
`requests.get(...)` within the `try` block.  Wall-clock bookkeeping
(start/elapsed times) is reporting-only and abstracted; the print on
line 84 is the progress notification event, the print on line 113 the
transient-error record, and `time.sleep(POLL_INTERVAL)` the sleep
event. -/

/-- One outcome of the status query inside the `try` block. -/
inductive PollResponse where
  /-- `requests.exceptions.RequestException` raised by the query. -/
  | transportError : String → PollResponse
  /-- A successfully parsed JSON body. -/
  | payload : JVal → PollResponse
deriving DecidableEq

/-- An observable action of the polling loop, in order of occurrence. -/
inductive PollEvent where
  /-- Line 84: `print(f" Status: {status}, Progress: {progress:.1%}, ...")`,
  emitted only when the progress value changed (elapsed time abstracted). -/
  | progressNote : JVal → JVal → PollEvent
  /-- Line 108: the unknown-status warning. -/
  | unknownStatus : JVal → PollEvent
  /-- Line 113: `print(f" Polling error: {e}, Elapsed: ...")` (elapsed
  time abstracted). -/
  | pollError : String → PollEvent
  /-- Line 115: `time.sleep(POLL_INTERVAL)`. -/
  | sleep : ℕ → PollEvent
deriving DecidableEq

/-- How one run of the polling loop ends. -/
inductive PollResult where
  /-- Line 94: `return data`. -/
  | completed : JVal → PollResult
  /-- Line 103: `RuntimeError(f'Task {task_id} failed: {error_msg}')`,
  carrying the task id and the `error_msg` value. -/
  | jobFailed : String → JVal → PollResult
  /-- The script is exhausted: the loop is still running and would poll
  again; the retained `last_progress` is exposed. -/
  | stillPolling : JVal → PollResult
  /-- An exception the `except` clause does not catch (payload not a
  dict). -/
  | pythonError : PollResult
deriving DecidableEq

/-- `error_msg = data.get('error') or 'Unknown error'` (line 102). -/
def pollErrMsg (kvs : List (String × JVal)) : JVal :=
  let v := jGetD kvs "error" .null
  if pyTruthy v then v else .str "Unknown error"

/-- The non-terminal statuses recognized on line 105. -/
def runningStatuses : List JVal :=
  [.str "queued", .str "pending", .str "in_progress", .str "processing"]

/-- What one loop iteration decides: continue with a new `last_progress`,
or halt the loop. -/
inductive StepOut where
  | next : JVal → StepOut
  | halt : PollResult → StepOut
deriving DecidableEq

/-- One iteration of the `while True` loop (lines 72-115) given the
retained `last_progress` and this iteration's query outcome. -/
def pollStep (taskId : String) (interval : ℕ) (lastProgress : JVal)
    (r : PollResponse) : List PollEvent × StepOut :=
  match r with
  | .transportError msg => ([.pollError msg, .sleep interval], .next lastProgress)
  | .payload data =>
    match data with
    | .obj kvs =>
      let status := jGetD kvs "status" .null
      let progress := jGetD kvs "progress" (.num 0)
      let notes := if jvalBeq progress lastProgress then []
                   else [PollEvent.progressNote status progress]
      let lp := if jvalBeq progress lastProgress then lastProgress else progress
      if jvalBeq status (.str "completed") then
        (notes, .halt (.completed data))
      else if jvalBeq status (.str "failed") || jvalBeq status (.str "error") then
        (notes, .halt (.jobFailed taskId (pollErrMsg kvs)))
      else if runningStatuses.contains status then
        (notes ++ [.sleep interval], .next lp)
      else
        (notes ++ [.unknownStatus status, .sleep interval], .next lp)
    | _ => ([], .halt .pythonError)

/-- The polling loop over a script of query outcomes. -/
def pollLoop (taskId : String) (interval : ℕ) :
    List PollResponse → JVal → List PollEvent × PollResult
  | [], lp => ([], .stillPolling lp)
  | r :: rest, lp =>
    match pollStep taskId interval lp r with
    | (evs, .halt res) => (evs, res)
    | (evs, .next lp1) =>
      let out := pollLoop taskId interval rest lp1
      (evs ++ out.1, out.2)

/-- `poll_for_result(task_id)` driven by a script: `last_progress = -1`
initially, `POLL_INTERVAL = 5`. -/
def poll_for_result (taskId : String) (script : List PollResponse) :
    List PollEvent × PollResult :=
  pollLoop taskId 5 script (.num (-1))

/-! ### Lemmas: decimal rendering -/

/-- Each digit character of a digit below ten is a decimal digit. -/
theorem digitChar_isDigit : ∀ n : ℕ, n < 10 → (digitChar n).isDigit = true := by
  decide

/-- Every character produced by `natReprCore` is a decimal digit. -/
theorem natReprCore_digits :
    ∀ fuel n : ℕ, ∀ c ∈ natReprCore fuel n, c.isDigit = true := by
  intro fuel
  induction fuel with
  | zero => intro n c hc; simp [natReprCore] at hc
  | succ f ih =>
    intro n c hc
    rw [natReprCore] at hc
    by_cases h : n < 10
    · rw [if_pos h] at hc
      simp only [List.mem_singleton] at hc
      exact hc ▸ digitChar_isDigit n h
    · rw [if_neg h] at hc
      rcases List.mem_append.mp hc with h1 | h1
      · exact ih (n / 10) c h1
      · simp only [List.mem_singleton] at h1
        exact h1 ▸ digitChar_isDigit (n % 10) (Nat.mod_lt n (by omega))

/-- `natReprCore` with positive fuel never returns the empty list. -/
theorem natReprCore_ne_nil (fuel n : ℕ) : natReprCore (fuel + 1) n ≠ [] := by
  rw [natReprCore]
  by_cases h : n < 10
  · rw [if_pos h]; simp
  · rw [if_neg h]; simp

/-- The data of `padNat` is zeros followed by the decimal digits. -/
theorem padNat_data (w n : ℕ) :
    (padNat w n).data =
      List.replicate (w - (natRepr n).length) '0' ++ (natRepr n).data := rfl

/-- Every character of `padNat` is a decimal digit. -/
theorem padNat_digits (w n : ℕ) : ∀ c ∈ (padNat w n).data, c.isDigit = true := by
  intro c hc
  rw [padNat_data] at hc
  rcases List.mem_append.mp hc with h1 | h1
  · rw [List.eq_of_mem_replicate h1]; decide
  · exact natReprCore_digits (n + 1) n c h1

/-- `padNat` reaches the requested width. -/
theorem padNat_length (w n : ℕ) :
    (padNat w n).data.length = max w (natRepr n).length := by
  rw [padNat_data]
  simp only [List.length_append, List.length_replicate]
  have : (natRepr n).length = (natRepr n).data.length := rfl
  omega

set_option maxRecDepth 4000 in
/-- Two-digit bound: naturals below 100 print in at most two characters. -/
theorem natRepr_len_le_two : ∀ n : ℕ, n < 100 → (natRepr n).length ≤ 2 := by
  decide

set_option maxRecDepth 40000 in
/-- Three-digit bound: naturals below 1000 print in at most three
characters. -/
theorem natRepr_len_le_three : ∀ n : ℕ, n < 1000 → (natRepr n).length ≤ 3 := by
  decide

/-! ### Lemmas: the time codec -/

/-- The Python modulo is non-negative for a positive modulus. -/
theorem pymod_nonneg (a m : ℚ) (hm : 0 < m) : 0 ≤ pymod a m := by
  rw [pymod, sub_nonneg]
  calc m * (⌊a / m⌋ : ℚ) ≤ m * (a / m) := by
        exact mul_le_mul_of_nonneg_left (Int.floor_le _) hm.le
    _ = a := by field_simp

/-- The Python modulo is below a positive modulus. -/
theorem pymod_lt (a m : ℚ) (hm : 0 < m) : pymod a m < m := by
  rw [pymod, sub_lt_iff_lt_add]
  have h := Int.lt_floor_add_one (a / m)
  calc a = m * (a / m) := by field_simp
    _ < m * ((⌊a / m⌋ : ℚ) + 1) := by
        exact mul_lt_mul_of_pos_left h hm
    _ = m + m * (⌊a / m⌋ : ℚ) := by ring

/-- Flooring after dividing an integer by a positive natural equals
flooring the rational division. -/
theorem floor_floorCast_div (x : ℚ) (k : ℕ) (hk : 0 < k) :
    ⌊(⌊x⌋ : ℚ) / (k : ℚ)⌋ = ⌊x / (k : ℚ)⌋ := by
  have hk0 : (0 : ℚ) < (k : ℚ) := by exact_mod_cast hk
  apply le_antisymm
  · apply Int.floor_le_floor
    exact div_le_div_of_nonneg_right (Int.floor_le x) hk0.le
  · rw [Int.le_floor]
    rw [le_div_iff₀ hk0]
    have h1 : (⌊x / (k : ℚ)⌋ : ℚ) * k ≤ x := by
      rw [← le_div_iff₀ hk0]
      exact Int.floor_le _
    have h2 : ((⌊x / (k : ℚ)⌋ * k : ℤ) : ℚ) ≤ x := by push_cast; exact h1
    exact_mod_cast Int.le_floor.mpr h2

/-- Dividing the millisecond truncation by `k` floors like the original. -/
theorem floor_trunc_div (s : ℚ) (k : ℕ) (hk : 0 < k) :
    ⌊(⌊s * 1000⌋ : ℚ) / 1000 / (k : ℚ)⌋ = ⌊s / (k : ℚ)⌋ := by
  have h1 : (⌊s * 1000⌋ : ℚ) / 1000 / (k : ℚ)
      = (⌊s * 1000⌋ : ℚ) / ((1000 * k : ℕ) : ℚ) := by
    push_cast
    rw [div_div]
  have hk2 : (0 : ℕ) < 1000 * k := by omega
  rw [h1, floor_floorCast_div _ _ hk2]
  congr 1
  have hkq : ((k : ℚ)) ≠ 0 := by exact_mod_cast hk.ne.symm
  push_cast
  field_simp
  ring

/-- The millisecond truncation has the same floor as the original. -/
theorem floor_trunc (s : ℚ) : ⌊(⌊s * 1000⌋ : ℚ) / 1000⌋ = ⌊s⌋ := by
  have h := floor_trunc_div s 1 (by omega)
  simpa using h

/-- The minutes field in terms of plain floors. -/
theorem srtMinutes_eq (u : ℚ) : srtMinutes u = ⌊u / 60⌋ - 60 * ⌊u / 3600⌋ := by
  rw [srtMinutes, pymod]
  have h : (u - 3600 * (⌊u / 3600⌋ : ℚ)) / 60
      = u / 60 - ((60 * ⌊u / 3600⌋ : ℤ) : ℚ) := by
    push_cast
    ring
  rw [h, Int.floor_sub_int]

/-- The seconds field in terms of plain floors. -/
theorem srtSecs_eq (u : ℚ) : srtSecs u = ⌊u⌋ - 60 * ⌊u / 60⌋ := by
  rw [srtSecs, pytrunc, if_pos (pymod_nonneg u 60 (by norm_num)), pymod]
  have h : u - 60 * (⌊u / 60⌋ : ℚ) = u - ((60 * ⌊u / 60⌋ : ℤ) : ℚ) := by
    push_cast
    ring
  rw [h, Int.floor_sub_int]

/-- The milliseconds field in terms of plain floors. -/
theorem srtMillis_eq (u : ℚ) : srtMillis u = ⌊u * 1000⌋ - 1000 * ⌊u⌋ := by
  have hnn : 0 ≤ pymod u 1 * 1000 :=
    mul_nonneg (pymod_nonneg u 1 (by norm_num)) (by norm_num)
  rw [srtMillis, pytrunc, if_pos hnn, pymod]
  have h : (u - 1 * (⌊u / 1⌋ : ℚ)) * 1000
      = u * 1000 - ((1000 * ⌊u⌋ : ℤ) : ℚ) := by
    rw [div_one]
    push_cast
    ring
  rw [h, Int.floor_sub_int]

/-- Hours are invariant under millisecond truncation of the input. -/
theorem srtHours_trunc (s : ℚ) : srtHours ((⌊s * 1000⌋ : ℚ) / 1000) = srtHours s := by
  rw [srtHours, srtHours]
  have h := floor_trunc_div s 3600 (by omega)
  exact_mod_cast h

/-- Minutes are invariant under millisecond truncation of the input. -/
theorem srtMinutes_trunc (s : ℚ) :
    srtMinutes ((⌊s * 1000⌋ : ℚ) / 1000) = srtMinutes s := by
  rw [srtMinutes_eq, srtMinutes_eq]
  have h60 := floor_trunc_div s 60 (by omega)
  have h3600 := floor_trunc_div s 3600 (by omega)
  norm_num at h60 h3600
  rw [h60, h3600]

/-- Seconds are invariant under millisecond truncation of the input. -/
theorem srtSecs_trunc (s : ℚ) : srtSecs ((⌊s * 1000⌋ : ℚ) / 1000) = srtSecs s := by
  rw [srtSecs_eq, srtSecs_eq]
  have h60 := floor_trunc_div s 60 (by omega)
  norm_num at h60
  rw [h60, floor_trunc]

/-- Milliseconds are invariant under millisecond truncation of the input. -/
theorem srtMillis_trunc (s : ℚ) :
    srtMillis ((⌊s * 1000⌋ : ℚ) / 1000) = srtMillis s := by
  rw [srtMillis_eq, srtMillis_eq, floor_trunc]
  have h : (⌊s * 1000⌋ : ℚ) / 1000 * 1000 = (⌊s * 1000⌋ : ℚ) := by
    field_simp
  rw [h, Int.floor_intCast]

/-- For non-negative input all four fields are non-negative, minutes and
seconds are at most 59 and milliseconds at most 999. -/
theorem srt_fields_bounds (s : ℚ) (hs : 0 ≤ s) :
    0 ≤ srtHours s ∧ (0 ≤ srtMinutes s ∧ srtMinutes s ≤ 59) ∧
      (0 ≤ srtSecs s ∧ srtSecs s ≤ 59) ∧ (0 ≤ srtMillis s ∧ srtMillis s ≤ 999) := by
  have h3600 := pymod_nonneg s 3600 (by norm_num)
  have h3600lt := pymod_lt s 3600 (by norm_num)
  have h60 := pymod_nonneg s 60 (by norm_num)
  have h60lt := pymod_lt s 60 (by norm_num)
  have h1 := pymod_nonneg s 1 (by norm_num)
  have h1lt := pymod_lt s 1 (by norm_num)
  have hms : 0 ≤ pymod s 1 * 1000 := mul_nonneg h1 (by norm_num)
  refine ⟨?_, ⟨?_, ?_⟩, ⟨?_, ?_⟩, ⟨?_, ?_⟩⟩
  · exact Int.floor_nonneg.mpr (by positivity)
  · exact Int.floor_nonneg.mpr (div_nonneg h3600 (by norm_num))
  · have hlt : srtMinutes s < 60 := by
      rw [srtMinutes, Int.floor_lt]
      push_cast
      rw [div_lt_iff₀ (by norm_num : (0 : ℚ) < 60)]
      linarith
    omega
  · rw [srtSecs, pytrunc, if_pos h60]
    exact Int.floor_nonneg.mpr h60
  · have hlt : srtSecs s < 60 := by
      rw [srtSecs, pytrunc, if_pos h60, Int.floor_lt]
      push_cast
      linarith
    omega
  · rw [srtMillis, pytrunc, if_pos hms]
    exact Int.floor_nonneg.mpr hms
  · have hlt : srtMillis s < 1000 := by
      rw [srtMillis, pytrunc, if_pos hms, Int.floor_lt]
      push_cast
      nlinarith
    omega

/-- For non-negative values Python zero-padding has no sign character. -/
theorem padInt_nonneg (w : ℕ) (i : ℤ) (h : 0 ≤ i) : padInt w i = padNat w i.toNat := by
  rw [padInt, if_neg (not_lt.mpr h)]

/-- Appending strings concatenates their character data. -/
theorem string_data_append (a b : String) : (a ++ b).data = a.data ++ b.data := rfl

/-- The character data of the string literal `":"`. -/
theorem colon_data : (":" : String).data = [':'] := rfl

/-- The character data of the string literal `","`. -/
theorem comma_data : ("," : String).data = [','] := rfl

/-- `srtPatternOk` accepts any string assembled from a digit block of
length at least two, a colon, two digits, a colon, two digits, a comma
and three digits. -/
theorem srtPatternOk_append (A B C D : String)
    (hhd : ∀ c ∈ A.data, c.isDigit = true) (hlen : 2 ≤ A.data.length)
    (hm : B.data.length = 2) (hmd : ∀ c ∈ B.data, c.isDigit = true)
    (hs : C.data.length = 2) (hsd : ∀ c ∈ C.data, c.isDigit = true)
    (hms : D.data.length = 3) (hmsd : ∀ c ∈ D.data, c.isDigit = true) :
    srtPatternOk (A ++ ":" ++ B ++ ":" ++ C ++ "," ++ D) = true := by
  obtain ⟨m1, mm2, hB⟩ := List.length_eq_two.mp hm
  obtain ⟨s1, ss2, hC⟩ := List.length_eq_two.mp hs
  obtain ⟨x1, x2, x3, hD⟩ := List.length_eq_three.mp hms
  have hcolon : ¬ (Char.isDigit ':' = true) := by decide
  have hm1 := hmd m1 (by rw [hB]; simp)
  have hmm2 := hmd mm2 (by rw [hB]; simp)
  have hs1 := hsd s1 (by rw [hC]; simp)
  have hss2 := hsd ss2 (by rw [hC]; simp)
  have hx1 := hmsd x1 (by rw [hD]; simp)
  have hx2 := hmsd x2 (by rw [hD]; simp)
  have hx3 := hmsd x3 (by rw [hD]; simp)
  rw [srtPatternOk]
  simp only [string_data_append, colon_data, comma_data, hB, hC, hD,
    List.append_assoc, List.cons_append, List.nil_append]
  simp only [List.takeWhile_append_of_pos hhd, List.dropWhile_append_of_pos hhd,
    List.takeWhile_cons_of_neg hcolon, List.dropWhile_cons_of_neg hcolon]
  simp [hm1, hmm2, hs1, hss2, hx1, hx2, hx3, hlen]
  exact hlen

/-- The time codec output always matches `\d{2,}:\d{2}:\d{2},\d{3}` for
non-negative input. -/
theorem seconds_to_srt_time_pattern (s : ℚ) (hs : 0 ≤ s) :
    srtPatternOk (seconds_to_srt_time s) = true := by
  obtain ⟨hH, ⟨hM0, hM59⟩, ⟨hS0, hS59⟩, ⟨hX0, hX999⟩⟩ := srt_fields_bounds s hs
  rw [seconds_to_srt_time, padInt_nonneg _ _ hH, padInt_nonneg _ _ hM0,
    padInt_nonneg _ _ hS0, padInt_nonneg _ _ hX0]
  apply srtPatternOk_append
  · exact padNat_digits _ _
  · rw [padNat_length]
    exact le_max_left _ _
  · rw [padNat_length]
    have h2 : (natRepr (srtMinutes s).toNat).length ≤ 2 :=
      natRepr_len_le_two _ (by omega)
    omega
  · exact padNat_digits _ _
  · rw [padNat_length]
    have h2 : (natRepr (srtSecs s).toNat).length ≤ 2 :=
      natRepr_len_le_two _ (by omega)
    omega
  · exact padNat_digits _ _
  · rw [padNat_length]
    have h3 : (natRepr (srtMillis s).toNat).length ≤ 3 :=
      natRepr_len_le_three _ (by omega)
    omega
  · exact padNat_digits _ _

/-- C2: for every non-negative number of seconds `s`, `seconds_to_srt_time`
returns a string matching `\d{2,}:\d{2}:\d{2},\d{3}` with minutes and
seconds in `[0, 59]`, truncating (not rounding) to millisecond precision
(the output only depends on `⌊s * 1000⌋`); in particular
`seconds_to_srt_time 3661.234 = "01:01:01,234"` and
`seconds_to_srt_time 0 = "00:00:00,000"`. -/
theorem claim_C2_time_codec :
    (∀ s : ℚ, 0 ≤ s →
      srtPatternOk (seconds_to_srt_time s) = true ∧
      (0 ≤ srtMinutes s ∧ srtMinutes s ≤ 59) ∧
      (0 ≤ srtSecs s ∧ srtSecs s ≤ 59) ∧
      seconds_to_srt_time s = seconds_to_srt_time ((⌊s * 1000⌋ : ℚ) / 1000)) ∧
    seconds_to_srt_time (3661.234 : ℚ) = "01:01:01,234" ∧
    seconds_to_srt_time 0 = "00:00:00,000" := by
  refine ⟨fun s hs => ⟨seconds_to_srt_time_pattern s hs, ?_, ?_, ?_⟩, ?_, ?_⟩
  · exact (srt_fields_bounds s hs).2.1
  · exact (srt_fields_bounds s hs).2.2.1
  · rw [seconds_to_srt_time, seconds_to_srt_time, srtHours_trunc,
      srtMinutes_trunc, srtSecs_trunc, srtMillis_trunc]
  · decide
  · decide

/-- Witness for C2 at the concrete input `3661.234`. -/
theorem claim_C2_time_codec_witness :
    srtPatternOk (seconds_to_srt_time (3661.234 : ℚ)) = true ∧
    seconds_to_srt_time (3661.234 : ℚ)
      = seconds_to_srt_time ((⌊(3661.234 : ℚ) * 1000⌋ : ℚ) / 1000) :=
  ⟨(claim_C2_time_codec.1 3661.234 (by norm_num)).1,
   (claim_C2_time_codec.1 3661.234 (by norm_num)).2.2.2⟩

/-! ### Lemmas: the serializer -/

/-- The `result` field is degenerate: not a list, or an empty list (an
absent field already defaulted to the empty list). -/
def isDegenerateResult : JVal → Bool
  | .arr xs => xs.isEmpty
  | _ => true

/-- The segment decodes and its trimmed text is blank. -/
def blankSeg (seg : JVal) : Bool :=
  match decodeSegment seg with
  | .ok s => s.text == ""
  | .error _ => false

/-- The segment decodes and, when its text is non-blank, its `start` and
`end` values are numbers (so the cue can be formatted). -/
def segWellTyped (seg : JVal) : Bool :=
  match decodeSegment seg with
  | .ok s => s.text == "" || ((pyNumVal s.start).isSome && (pyNumVal s.stop).isSome)
  | .error _ => false

/-- The cue text contributed by the segment at 1-based position `i`
(empty when the segment is skipped). -/
def cueAt (i : ℕ) (seg : JVal) : String :=
  match srtStep i seg with
  | .ok (some c) => c
  | _ => ""

/-- A list of all-blank segments serializes to the empty document. -/
theorem srtBody_all_blank :
    ∀ (segs : List JVal) (i : ℕ), (∀ seg ∈ segs, blankSeg seg = true) →
      srtBody segs i = .ok "" := by
  intro segs
  induction segs with
  | nil => intro i h; rfl
  | cons hd tl ih =>
    intro i h
    have hhd := h hd (by simp)
    rw [blankSeg] at hhd
    have htl := ih (i + 1) (fun seg hseg => h seg (by simp [hseg]))
    cases hde : decodeSegment hd with
    | error e => rw [hde] at hhd; simp at hhd
    | ok s =>
      rw [hde] at hhd
      have hs : s.text = "" := by simpa using hhd
      rw [srtBody, srtStep, hde]
      simp [hs, htl]

/-- A list of well-typed segments serializes to the concatenation of the
cue texts of its 1-based enumeration. -/
theorem srtBody_enum :
    ∀ (segs : List JVal) (i : ℕ), (∀ seg ∈ segs, segWellTyped seg = true) →
      srtBody segs i
        = .ok (((segs.enumFrom i).map (fun p => cueAt p.1 p.2)).foldr
            (fun a b => a ++ b) "") := by
  intro segs
  induction segs with
  | nil => intro i h; rfl
  | cons hd tl ih =>
    intro i h
    have hhd := h hd (by simp)
    rw [segWellTyped] at hhd
    have htl := ih (i + 1) (fun seg hseg => h seg (by simp [hseg]))
    cases hde : decodeSegment hd with
    | error e => rw [hde] at hhd; simp at hhd
    | ok s =>
      rw [hde] at hhd
      by_cases hs : s.text = ""
      · rw [srtBody, srtStep, hde]
        simp [hs, htl, List.enumFrom, cueAt, srtStep, hde]
      · have hnum : (pyNumVal s.start).isSome ∧ (pyNumVal s.stop).isSome := by
          rcases Bool.or_eq_true_iff.mp hhd with h1 | h1
          · exact absurd (by simpa using h1) hs
          · exact ⟨(Bool.and_eq_true_iff.mp h1).1, (Bool.and_eq_true_iff.mp h1).2⟩
        obtain ⟨st, hst⟩ := Option.isSome_iff_exists.mp hnum.1
        obtain ⟨en, hen⟩ := Option.isSome_iff_exists.mp hnum.2
        rw [srtBody, srtStep, hde]
        simp [hs, hst, hen, htl, List.enumFrom, cueAt, srtStep, hde]

/-- C1 counterexample: on the segment list `[A(text=""), B(text="Hi")]`
the written document contains a single cue, but its index is `2` (the
1-based enumeration position of B), not the claimed `1`. -/
theorem claim_C1_counterexample :
    save_transcription_as_srt
        (.obj [("result", .arr [.obj [("text", .str "")], .obj [("text", .str "Hi")]])])
        "out.srt"
      = .ok ([("out.srt", .text "2\n00:00:00,000 --> 00:00:00,000\nHi\n\n")], true) ∧
    ("2\n00:00:00,000 --> 00:00:00,000\nHi\n\n" : String)
      ≠ "1\n00:00:00,000 --> 00:00:00,000\nHi\n\n" :=
  ⟨by rfl, by decide⟩

/-- C1 amended: `save_transcription_as_srt` excludes every segment whose
text is empty or whitespace-only after trimming, but each emitted cue
keeps the 1-based position of its segment in the decoded list (indices
are taken from `enumerate(segments, 1)`, so gaps appear where blank
segments were skipped); in particular for `[A(text=""), B(text="Hi")]`
the written document contains a single cue whose index is 2. -/
theorem claim_C1_enumerated_indices :
    (∀ (kvs : List (String × JVal)) (segments : List JVal) (output_path : String),
      lookupKey kvs "result" = some (.arr segments) → segments ≠ [] →
      (∀ seg ∈ segments, segWellTyped seg = true) →
      save_transcription_as_srt (.obj kvs) output_path
        = .ok ([(output_path,
            .text (((segments.enumFrom 1).map (fun p => cueAt p.1 p.2)).foldr
              (fun a b => a ++ b) ""))], true)) ∧
    (∀ (i : ℕ) (seg : JVal) (s : Segment), decodeSegment seg = .ok s →
      s.text = "" → cueAt i seg = "") ∧
    (∀ (i : ℕ) (seg : JVal) (s : Segment) (st en : ℚ),
      decodeSegment seg = .ok s → s.text ≠ "" →
      pyNumVal s.start = some st → pyNumVal s.stop = some en →
      cueAt i seg = cueString i st en s.text) ∧
    save_transcription_as_srt
        (.obj [("result", .arr [.obj [("text", .str "")], .obj [("text", .str "Hi")]])])
        "out.srt"
      = .ok ([("out.srt", .text "2\n00:00:00,000 --> 00:00:00,000\nHi\n\n")], true) := by
  refine ⟨?_, ?_, ?_, by rfl⟩
  · intro kvs segments output_path hres hne hwt
    obtain ⟨a, as, rfl⟩ := List.exists_cons_of_ne_nil hne
    rw [save_transcription_as_srt]
    simp only [objGetD, jGetD, hres, Option.getD_some]
    rw [srtBody_enum _ 1 hwt]
    simp
  · intro i seg s hde hs
    simp [cueAt, srtStep, hde, hs]
  · intro i seg s st en hde hs hst hen
    simp [cueAt, srtStep, hde, hs, hst, hen]

/-- Witness for the amended C1 on a two-segment list with one blank
segment. -/
theorem claim_C1_enumerated_indices_witness :
    save_transcription_as_srt
        (.obj [("result", .arr [.obj [("text", .str " ")], .obj [("text", .str "Yes")]])])
        "w.srt"
      = .ok ([("w.srt",
          .text ((List.enumFrom 1 [JVal.obj [("text", .str " ")],
                JVal.obj [("text", .str "Yes")]]).map (fun p => cueAt p.1 p.2)
              |>.foldr (fun a b => a ++ b) ""))], true) :=
  claim_C1_enumerated_indices.1
    [("result", .arr [.obj [("text", .str " ")], .obj [("text", .str "Yes")]])]
    [.obj [("text", .str " ")], .obj [("text", .str "Yes")]]
    "w.srt" rfl (by decide) (fun seg hseg => by fin_cases hseg <;> rfl)

/-- C3: a payload whose `result` field is absent, not a list, or an empty
list is not serialized: the raw payload is dumped as JSON at the
`.srt`-to-`_raw.json` rewritten path, no text document is written
anywhere, and the function returns `False`. -/
theorem claim_C3_raw_fallback (kvs : List (String × JVal)) (output_path : String)
    (h : isDegenerateResult (jGetD kvs "result" (.arr [])) = true) :
    save_transcription_as_srt (.obj kvs) output_path
      = .ok ([(pyReplace output_path ".srt" "_raw.json", .json (.obj kvs))], false) ∧
    (∀ p t, (p, FileContent.text t)
        ∉ [(pyReplace output_path ".srt" "_raw.json",
            FileContent.json (JVal.obj kvs))]) := by
  refine ⟨?_, by intro p t; simp⟩
  rw [save_transcription_as_srt]
  rw [jGetD] at h
  cases hv : (lookupKey kvs "result").getD (.arr []) with
  | arr xs =>
    rw [hv] at h
    simp only [isDegenerateResult] at h
    simp [objGetD, jGetD, hv, h]
  | null => simp [objGetD, jGetD, hv]
  | bool b => simp [objGetD, jGetD, hv]
  | num q => simp [objGetD, jGetD, hv]
  | str t => simp [objGetD, jGetD, hv]
  | obj o => simp [objGetD, jGetD, hv]

/-- Witness for C3: a completed payload with no `result` field. -/
theorem claim_C3_raw_fallback_witness :
    save_transcription_as_srt (.obj [("status", .str "completed")]) "out.srt"
      = .ok ([("out_raw.json", .json (.obj [("status", .str "completed")]))], false) :=
  (claim_C3_raw_fallback [("status", .str "completed")] "out.srt" (by rfl)).1

/-- C4: decoding an element of a non-empty segment list never raises for
missing optional sub-fields: a missing `start` or `end` defaults to 0, a
missing `text` defaults to the empty string, and the text is stripped of
leading/trailing whitespace before use (only a present non-string `text`
could make decoding fail, which the hypothesis excludes). -/
theorem claim_C4_decode_defaults (kvs : List (String × JVal))
    (htext : lookupKey kvs "text" = none ∨ ∃ t, lookupKey kvs "text" = some (.str t)) :
    ∃ seg, decodeSegment (.obj kvs) = .ok seg ∧
      (lookupKey kvs "start" = none → seg.start = .num 0) ∧
      (lookupKey kvs "end" = none → seg.stop = .num 0) ∧
      (lookupKey kvs "text" = none → seg.text = "") ∧
      (∀ t, lookupKey kvs "text" = some (.str t) → seg.text = pyStrip t) := by
  rcases htext with h | ⟨t, h⟩
  · refine ⟨⟨jGetD kvs "start" (.num 0), jGetD kvs "end" (.num 0), pyStrip ""⟩,
      ?_, ?_, ?_, ?_, ?_⟩
    · rw [decodeSegment]
      simp [objGetD, jGetD, h]
    · intro hstart; simp [jGetD, hstart]
    · intro hend; simp [jGetD, hend]
    · intro hmiss; rfl
    · intro u hu; rw [h] at hu; cases hu
  · refine ⟨⟨jGetD kvs "start" (.num 0), jGetD kvs "end" (.num 0), pyStrip t⟩,
      ?_, ?_, ?_, ?_, ?_⟩
    · rw [decodeSegment]
      simp [objGetD, jGetD, h]
    · intro hstart; simp [jGetD, hstart]
    · intro hend; simp [jGetD, hend]
    · intro hmiss; rw [h] at hmiss; cases hmiss
    · intro u hu
      rw [h] at hu
      have : t = u := by
        have h2 := Option.some.inj hu
        exact (JVal.str.inj h2)
      rw [this]

/-- Witness for C4: the empty segment dict decodes with all defaults. -/
theorem claim_C4_decode_defaults_witness :
    ∃ seg, decodeSegment (.obj []) = .ok seg ∧
      (lookupKey [] "start" = none → seg.start = .num 0) ∧
      (lookupKey [] "end" = none → seg.stop = .num 0) ∧
      (lookupKey [] "text" = none → seg.text = "") ∧
      (∀ t, lookupKey [] "text" = some (.str t) → seg.text = pyStrip t) :=
  claim_C4_decode_defaults [] (Or.inl rfl)

/-- C10: a payload whose `result` is a non-empty list in which every
element decodes to blank text (missing, empty or whitespace-only) is
still written as a subtitle file with zero cues at the output path and
the function returns `True` (the raw-payload fallback is not taken). -/
theorem claim_C10_all_blank (kvs : List (String × JVal)) (segments : List JVal)
    (output_path : String)
    (hres : lookupKey kvs "result" = some (.arr segments))
    (hne : segments ≠ [])
    (hblank : ∀ seg ∈ segments, blankSeg seg = true) :
    save_transcription_as_srt (.obj kvs) output_path
      = .ok ([(output_path, .text "")], true) := by
  obtain ⟨a, as, rfl⟩ := List.exists_cons_of_ne_nil hne
  rw [save_transcription_as_srt]
  simp only [objGetD, jGetD, hres, Option.getD_some]
  rw [srtBody_all_blank _ 1 hblank]
  simp

/-- Witness for C10: one whitespace-only segment still yields an empty
document and `True`. -/
theorem claim_C10_all_blank_witness :
    save_transcription_as_srt (.obj [("result", .arr [.obj [("text", .str "  ")]])])
        "x.srt"
      = .ok ([("x.srt", .text "")], true) :=
  claim_C10_all_blank [("result", .arr [.obj [("text", .str "  ")]])]
    [.obj [("text", .str "  ")]] "x.srt" rfl (by decide)
    (fun seg hseg => by fin_cases hseg <;> rfl)

/-! ### Lemmas: poller and submission -/

/-- A string is non-blank exactly when `isEmpty` is false. -/
theorem isEmpty_false_of_ne (s : String) (h : s ≠ "") : s.isEmpty = false := by
  cases he : s.isEmpty
  · rfl
  · exact absurd ((String.isEmpty_iff s).mp he) h

/-- Recognizer for the progress notification event. -/
def isProgressNote : PollEvent → Bool
  | .progressNote _ _ => true
  | _ => false

/-- C9: a transport-level error on one poll attempt does not terminate
the polling loop and does not raise: the error is recorded, the fixed
poll interval is waited, and the remaining script is still processed with
the retained progress unchanged. -/
theorem claim_C9_transient_transport (tid : String) (interval : ℕ) (msg : String)
    (rest : List PollResponse) (lp : JVal) :
    pollStep tid interval lp (.transportError msg)
        = ([.pollError msg, .sleep interval], .next lp) ∧
    pollLoop tid interval (.transportError msg :: rest) lp
      = (.pollError msg :: .sleep interval :: (pollLoop tid interval rest lp).1,
         (pollLoop tid interval rest lp).2) :=
  ⟨rfl, rfl⟩

/-- C5: a poll response whose status is `failed` or `error` halts the
loop with a `RuntimeError` carrying the backend-reported error message;
an absent or falsy `error` field produces the default `Unknown error`; in
particular `failed` with `error: "disk full"` raises carrying
`disk full`. -/
theorem claim_C5_failed_raises :
    (∀ (tid : String) (interval : ℕ) (lp : JVal) (kvs : List (String × JVal)),
      (jGetD kvs "status" .null = .str "failed" ∨
        jGetD kvs "status" .null = .str "error") →
      (pollStep tid interval lp (.payload (.obj kvs))).2
          = .halt (.jobFailed tid (pollErrMsg kvs)) ∧
      (∀ rest, pollLoop tid interval (.payload (.obj kvs) :: rest) lp
        = ((pollStep tid interval lp (.payload (.obj kvs))).1,
           .jobFailed tid (pollErrMsg kvs))) ∧
      (lookupKey kvs "error" = none → pollErrMsg kvs = .str "Unknown error") ∧
      (lookupKey kvs "error" = some (.str "") →
        pollErrMsg kvs = .str "Unknown error") ∧
      (∀ m : String, lookupKey kvs "error" = some (.str m) → m ≠ "" →
        pollErrMsg kvs = .str m)) ∧
    poll_for_result "t1"
        [.payload (.obj [("status", .str "failed"), ("error", .str "disk full")])]
      = ([.progressNote (.str "failed") (.num 0)],
         .jobFailed "t1" (.str "disk full")) ∧
    poll_for_result "t1" [.payload (.obj [("status", .str "failed")])]
      = ([.progressNote (.str "failed") (.num 0)],
         .jobFailed "t1" (.str "Unknown error")) := by
  refine ⟨?_, by decide, by decide⟩
  intro tid interval lp kvs hst
  have hstep : (pollStep tid interval lp (.payload (.obj kvs))).2
      = .halt (.jobFailed tid (pollErrMsg kvs)) := by
    rcases hst with h | h <;>
      · rw [pollStep]
        simp [h, jvalBeq]
  refine ⟨hstep, ?_, ?_, ?_, ?_⟩
  · intro rest
    have hpair : pollStep tid interval lp (.payload (.obj kvs))
        = ((pollStep tid interval lp (.payload (.obj kvs))).1,
           .halt (.jobFailed tid (pollErrMsg kvs))) := by
      rw [← hstep]
    rw [pollLoop, hpair]
  · intro h
    simp [pollErrMsg, jGetD, h, pyTruthy]
  · intro h
    simp [pollErrMsg, jGetD, h, pyTruthy, (String.isEmpty_iff "").mpr rfl]
  · intro m h hm
    simp [pollErrMsg, jGetD, h, pyTruthy, isEmpty_false_of_ne m hm]

/-- Witness for C5 at a concrete `failed` payload with `disk full`. -/
theorem claim_C5_failed_raises_witness :
    (pollStep "t1" 5 (.num (-1))
        (.payload (.obj [("status", .str "failed"), ("error", .str "disk full")]))).2
      = .halt (.jobFailed "t1" (.str "disk full")) :=
  (claim_C5_failed_raises.1 "t1" 5 (.num (-1))
    [("status", .str "failed"), ("error", .str "disk full")] (Or.inl rfl)).1

/-- C8: on a successful poll a progress notification is emitted exactly
when the observed progress differs from the previous successful poll's
progress (duplicate consecutive values never re-notify); a failed query
emits none; `completed` is the sole success exit; and on the script
`queued → processing(0.3) → processing(0.3) → processing(0.7) →
completed(1.0)` exactly one notification fires per distinct consecutive
progress value and the loop returns the completed payload. -/
theorem claim_C8_progress_notifications :
    (∀ (tid : String) (interval : ℕ) (lp : JVal) (kvs : List (String × JVal)),
      (pollStep tid interval lp (.payload (.obj kvs))).1.countP isProgressNote
        = (if jGetD kvs "progress" (.num 0) = lp then 0 else 1)) ∧
    (∀ (tid : String) (interval : ℕ) (lp : JVal) (msg : String),
      (pollStep tid interval lp (.transportError msg)).1.countP isProgressNote = 0) ∧
    (∀ (tid : String) (interval : ℕ) (lp : JVal) (kvs : List (String × JVal))
        (d : JVal),
      (pollStep tid interval lp (.payload (.obj kvs))).2 = .halt (.completed d) →
      jGetD kvs "status" .null = .str "completed" ∧ d = .obj kvs) ∧
    poll_for_result "t1"
        [.payload (.obj [("status", .str "queued")]),
         .payload (.obj [("status", .str "processing"), ("progress", .num (3/10))]),
         .payload (.obj [("status", .str "processing"), ("progress", .num (3/10))]),
         .payload (.obj [("status", .str "processing"), ("progress", .num (7/10))]),
         .payload (.obj [("status", .str "completed"), ("progress", .num 1)])]
      = ([.progressNote (.str "queued") (.num 0), .sleep 5,
          .progressNote (.str "processing") (.num (3/10)), .sleep 5, .sleep 5,
          .progressNote (.str "processing") (.num (7/10)), .sleep 5,
          .progressNote (.str "completed") (.num 1)],
         .completed (.obj [("status", .str "completed"), ("progress", .num 1)])) := by
  refine ⟨?_, ?_, ?_, by decide⟩
  · intro tid interval lp kvs
    rw [pollStep]
    by_cases hb : jGetD kvs "progress" (.num 0) = lp
    · have hbeq : jvalBeq (jGetD kvs "progress" (.num 0)) lp = true :=
        (jvalBeq_iff _ _).mpr hb
      rw [if_pos hb]
      simp only [hbeq]
      split <;> (try split) <;> (try split) <;> simp_all [isProgressNote]
    · have hbeq : jvalBeq (jGetD kvs "progress" (.num 0)) lp = false := by
        cases hx : jvalBeq (jGetD kvs "progress" (.num 0)) lp
        · rfl
        · exact absurd ((jvalBeq_iff _ _).mp hx) hb
      rw [if_neg hb]
      simp only [hbeq]
      split <;> (try split) <;> (try split) <;> simp_all [isProgressNote]
  · intro tid interval lp msg
    rfl
  · intro tid interval lp kvs d h
    rw [pollStep] at h
    split at h
    · refine ⟨(jvalBeq_iff _ _).mp (by assumption), ?_⟩
      simp only [StepOut.halt.injEq, PollResult.completed.injEq] at h
      exact h.symm
    · split at h
      · simp at h
      · split at h <;> simp at h

/-- Witness for C8 at a first poll that observes `completed`
immediately. -/
theorem claim_C8_progress_notifications_witness :
    jGetD [("status", JVal.str "completed")] "status" .null = .str "completed" ∧
    JVal.obj [("status", JVal.str "completed")]
      = .obj [("status", JVal.str "completed")] :=
  claim_C8_progress_notifications.2.2.1 "t1" 5 (.num (-1))
    [("status", .str "completed")] (.obj [("status", .str "completed")]) rfl

/-- C6: a submission response with a non-success transport status (any
4xx/5xx, e.g. 500) fails with the transport error alone, for every
response body — so no identifier extraction is attempted and no job
handle is returned. -/
theorem claim_C6_transport_failure (code : ℕ) (body : JVal)
    (h4 : 400 ≤ code) (h6 : code < 600) :
    upload_and_get_task_id ⟨code, body⟩ = .error (.transportError code) ∧
    ∀ v, upload_and_get_task_id ⟨code, body⟩ ≠ .ok v := by
  have hcond : 400 ≤ code ∧ code < 600 := ⟨h4, h6⟩
  constructor
  · rw [upload_and_get_task_id, if_pos hcond]
  · intro v
    rw [upload_and_get_task_id, if_pos hcond]
    simp

/-- Witness for C6 at status 500. -/
theorem claim_C6_transport_failure_witness :
    upload_and_get_task_id ⟨500, .obj [("identifier", .str "abc")]⟩
      = .error (.transportError 500) :=
  (claim_C6_transport_failure 500 (.obj [("identifier", .str "abc")])
    (by decide) (by decide)).1

/-- C7: on a transport-success submission response, a job handle is
returned exactly when the body's `identifier` field is present and
truthy; an absent or empty identifier raises the `ValueError` instead of
returning a handle. -/
theorem claim_C7_identifier_extraction (code : ℕ) (kvs : List (String × JVal))
    (hcode : code < 400) :
    (∀ v, upload_and_get_task_id ⟨code, .obj kvs⟩ = .ok v ↔
      (jGetD kvs "identifier" .null = v ∧ pyTruthy v = true)) ∧
    (lookupKey kvs "identifier" = none →
      upload_and_get_task_id ⟨code, .obj kvs⟩ = .error (.noIdentifier (.obj kvs))) ∧
    (lookupKey kvs "identifier" = some (.str "") →
      upload_and_get_task_id ⟨code, .obj kvs⟩ = .error (.noIdentifier (.obj kvs))) ∧
    (∀ s : String, lookupKey kvs "identifier" = some (.str s) → s ≠ "" →
      upload_and_get_task_id ⟨code, .obj kvs⟩ = .ok (.str s)) := by
  have hno : ¬ (400 ≤ code ∧ code < 600) := by omega
  have hbase : upload_and_get_task_id ⟨code, .obj kvs⟩
      = (if pyTruthy (jGetD kvs "identifier" .null) then
          .ok (jGetD kvs "identifier" .null)
         else .error (.noIdentifier (.obj kvs))) := by
    rw [upload_and_get_task_id, if_neg hno]
  refine ⟨?_, ?_, ?_, ?_⟩
  · intro v
    rw [hbase]
    by_cases hp : pyTruthy (jGetD kvs "identifier" .null) = true
    · rw [if_pos hp]
      constructor
      · intro h
        have hv := Except.ok.inj h
        exact ⟨hv, hv ▸ hp⟩
      · rintro ⟨rfl, hv⟩
        rfl
    · rw [if_neg hp]
      constructor
      · intro h
        cases h
      · rintro ⟨rfl, hv⟩
        exact absurd hv hp
  · intro h
    rw [hbase]
    simp [jGetD, h, pyTruthy]
  · intro h
    rw [hbase]
    simp [jGetD, h, pyTruthy, (String.isEmpty_iff "").mpr rfl]
  · intro s h hs
    rw [hbase]
    simp [jGetD, h, pyTruthy, isEmpty_false_of_ne s hs]

/-- Witness for C7 at status 200 with identifier `abc`. -/
theorem claim_C7_identifier_extraction_witness :
    upload_and_get_task_id ⟨200, .obj [("identifier", .str "abc")]⟩
      = .ok (.str "abc") :=
  (claim_C7_identifier_extraction 200 [("identifier", .str "abc")]
    (by decide)).2.2.2 "abc" rfl (by decide)

end

end SermonSummarizer
